import Mathlib

/-!
# gen303 / acid-line — shallow embedding of the sequencer core

This file embeds the scheduling/decision core of the `acid-line` TB-03
step sequencer:

* `src/acid-line/src/stores/sequencerStore.ts` — step data model, clamped
  setters, `stepToMidiNote`, `getVelocity`, transport actions;
* `src/acid-line/src/hooks/useSequencerEngine.ts` — `getStepDuration`,
  `getOscillatorValue`, `sendModulations`, `playStep`, `handleStop`, and the
  tempo-change effect on the step interval;
* `src/acid-line/src/hooks/useMidi.ts` — the outbound message layer
  (`noteOn` clamping, default channel).

JS `number` arithmetic is modelled exactly: rational arithmetic (`ℚ`) for
the engine's tempo/duration/random-velocity computations (all of which are
field operations), real arithmetic (`ℝ`) for the oscillator, which uses
`Math.sin`.  `Math.random()` results are passed in as explicit inputs in
`[0,1)`.  Deferred `setTimeout` callbacks are modelled as an explicit
pending slot on the engine state plus a `firePending` transition; since the
gate time (0.85 of a step) is strictly less than the step period, a pending
note-off scheduled at one tick fires before the next tick.
-/

namespace Gen303

/-- The 12 semitone names, `NOTE_NAMES` in `sequencerStore.ts`. -/
inductive NoteName where
  | C | Cs | D | Ds | E | F | Fs | G | Gs | A | As | B
deriving DecidableEq, Repr

/-- `NOTE_NAMES.indexOf(note)`: position of a note name in the fixed list
`['C','C#','D','D#','E','F','F#','G','G#','A','A#','B']`. -/
def noteIndex : NoteName → ℤ
  | .C => 0 | .Cs => 1 | .D => 2 | .Ds => 3 | .E => 4 | .F => 5
  | .Fs => 6 | .G => 7 | .Gs => 8 | .A => 9 | .As => 10 | .B => 11

/-- One step of the pattern (`interface Step` in `sequencerStore.ts`). -/
structure Step where
  note : NoteName
  octave : ℤ        -- -1, 0, +1 relative to base octave
  accent : Bool
  slide : Bool
  tie : Bool        -- tied to previous step
  active : Bool     -- whether this step plays a note
deriving DecidableEq, Repr

/-- The default step used by `clearAll` / the initial store state:
`{note: 'C', octave: 0, accent: false, slide: false, tie: false, active: true}`. -/
def defaultStep : Step := ⟨NoteName.C, 0, false, false, false, true⟩

/-- `stepToMidiNote(step, baseOctave)` from `sequencerStore.ts`:
`(baseOctave + step.octave + 1) * 12 + NOTE_NAMES.indexOf(step.note)`. -/
def stepToMidiNote (step : Step) (baseOctave : ℤ) : ℤ :=
  (baseOctave + step.octave + 1) * 12 + noteIndex step.note

/-- `getVelocity(accent)` from `sequencerStore.ts`, with the `Math.random()`
draw `r ∈ [0,1)` made explicit:
`accent ? 100 + floor(r * 28) : 1 + floor(r * 98)`. -/
def getVelocity (accent : Bool) (r : ℚ) : ℤ :=
  if accent then 100 + ⌊r * 28⌋ else 1 + ⌊r * 98⌋

/-- `setOctave` clamp in `sequencerStore.ts`: `Math.max(-1, Math.min(1, octave))`. -/
def setOctaveClamp (octave : ℤ) : ℤ := max (-1) (min 1 octave)

/-- `setBaseOctave` clamp in `sequencerStore.ts`: `Math.max(1, Math.min(6, octave))`. -/
def setBaseOctaveClamp (octave : ℤ) : ℤ := max 1 (min 6 octave)

/-- `setTempo` clamp in `sequencerStore.ts`: `Math.max(30, Math.min(300, tempo))`. -/
def setTempoClamp (tempo : ℚ) : ℚ := max 30 (min 300 tempo)

/-- `advanceStep` in `sequencerStore.ts`: `(currentStep + 1) % stepCount`. -/
def advanceStep (currentStep stepCount : ℕ) : ℕ := (currentStep + 1) % stepCount

/-- The 0–127 clamp used by the `useMidi.ts` senders:
`Math.max(0, Math.min(127, x))`. -/
def midiClamp (x : ℤ) : ℤ := max 0 (min 127 x)

/-- The three data bytes sent by `useMidi.ts` `noteOn` on the default
channel 1: status `0x90`, the note byte passed through unaltered, and the
velocity clamped to 0–127.  (The source rounds the velocity with
`Math.round`; every velocity the engine produces is already an integer.) -/
def noteOnMessage (note velocity : ℤ) : List ℤ :=
  [144, note, midiClamp velocity]

/-- `getStepDuration(tempo)` from `useSequencerEngine.ts`:
`(60000 / tempo) / 4` milliseconds per sixteenth note. -/
def getStepDuration (tempo : ℚ) : ℚ := 60000 / tempo / 4

/-- Outbound messages of the `UseMidiReturn` interface, at the granularity
the engine invokes them. -/
inductive MidiEvent where
  | noteOn (note velocity : ℤ)
  | noteOff (note : ℤ)
  | controlChange (cc value : ℤ)
  | pitchBendMsg (value : ℚ)
  | allNotesOff
deriving DecidableEq, Repr

/-- A scheduled deferred note-off (`noteOffTimeoutRef` plus the closure it
holds): the note to release and the `setTimeout` delay in ms. -/
structure Pending where
  note : ℤ
  delayMs : ℚ
deriving DecidableEq, Repr

/-- The note-gate part of the engine state: `lastNoteRef` and
`noteOffTimeoutRef` in `useSequencerEngine.ts`. -/
structure GateState where
  lastNote : Option ℤ
  pending : Option Pending
deriving DecidableEq, Repr

/-- `state.steps[i]` — the store invariant keeps every read index inside
`[0, stepCount)`, so the `getD` default is never reached in the theorems
below. -/
def getStep (steps : List Step) (i : ℕ) : Step := steps.getD i defaultStep

/-- `playStep()` from `useSequencerEngine.ts`, as a function of the store
snapshot (`steps`, current index, `tempo`, `baseOctave`), the
`Math.random()` draw `r` used by `getVelocity`, and the gate state.
Returns the new gate state and the messages sent during this call, in
order.  Mirrors the source:
1. clear any pending note-off;
2. `if (!step.active) return` — rest;
3. `if (step.tie && lastNoteRef.current !== null) return` — tied hold;
4. slide: `controlChange(102, 127)` or `controlChange(102, 0)`;
5. `noteOn(midiNote, velocity)`; `lastNoteRef.current = midiNote`;
6. schedule a note-off after `gateTime = stepDuration * 0.85` unless the
   next step (cyclically) has `tie=true`. -/
def playStep (steps : List Step) (stepIndex : ℕ) (tempo : ℚ) (baseOctave : ℤ)
    (r : ℚ) (g : GateState) : GateState × List MidiEvent :=
  let stepDuration := getStepDuration tempo
  let gateTime := stepDuration * 0.85
  let g0 : GateState := { g with pending := none }
  let step := getStep steps stepIndex
  if step.active = false then (g0, [])
  else if step.tie && g0.lastNote.isSome then (g0, [])
  else
    let midiNote := stepToMidiNote step baseOctave
    let velocity := getVelocity step.accent r
    let slideEvent : MidiEvent :=
      if step.slide then .controlChange 102 127 else .controlChange 102 0
    let g1 : GateState := { g0 with lastNote := some midiNote }
    let nextStep := getStep steps ((stepIndex + 1) % steps.length)
    let g2 : GateState :=
      if nextStep.tie = false then { g1 with pending := some ⟨midiNote, gateTime⟩ } else g1
    (g2, [slideEvent, .noteOn midiNote velocity])

/-- The deferred note-off `setTimeout` callback firing: sends
`noteOff(midiNote)` and nulls `noteOffTimeoutRef` — it does **not** clear
`lastNoteRef`.  Because the delay (0.85 of a step) is shorter than the step
period, a pending note-off always fires in the window between the tick that
scheduled it and the next tick. -/
def firePending (g : GateState) : GateState × List MidiEvent :=
  match g.pending with
  | some p => ({ g with pending := none }, [.noteOff p.note])
  | none => (g, [])

/-- One full step-clock period: the tick's `playStep()` call followed by
the deferred note-off (if one was scheduled) firing before the next tick. -/
def tickAndSettle (steps : List Step) (stepIndex : ℕ) (tempo : ℚ) (baseOctave : ℤ)
    (r : ℚ) (g : GateState) : GateState × List MidiEvent :=
  let s1 := playStep steps stepIndex tempo baseOctave r g
  let s2 := firePending s1.1
  (s2.1, s1.2 ++ s2.2)

/-- The engine-owned state that `handleStop` touches: the gate state plus
the store's `isPlaying` and `currentStep` fields. -/
structure EngineState where
  gate : GateState
  isPlaying : Bool
  currentStep : ℕ
deriving DecidableEq, Repr

/-- `handleStop()` from `useSequencerEngine.ts` composed with the store's
`stop()` action.  Mirrors the source order: clear the interval (not part of
this state), clear any pending note-off timeout, send `noteOff` for the
held note if any and null `lastNoteRef`, send `pitchBend(0)`, send
`allNotesOff()`, then `stop()` sets `isPlaying=false, currentStep=0`. -/
def handleStop (e : EngineState) : EngineState × List MidiEvent :=
  let heldOff : List MidiEvent :=
    match e.gate.lastNote with
    | some n => [.noteOff n]
    | none => []
  (⟨⟨none, none⟩, false, 0⟩, heldOff ++ [.pitchBendMsg 0, .allNotesOff])

/-- Tick times of the step clock around one mid-playback tempo change,
from the `useEffect` on `tempo` in `useSequencerEngine.ts`: ticks `0..m`
fire on the old `setInterval` cadence (`start + k * oldP`); when the tempo
changes at `changeTime` (after tick `m`), the effect runs
`clearInterval` then `setInterval(newP)`, so tick `m+1` and later fire at
`changeTime + (k - m) * newP`. -/
def tickTimeline (start oldP changeTime newP : ℚ) (m k : ℕ) : ℚ :=
  if k ≤ m then start + k * oldP else changeTime + ((k - m : ℕ) : ℚ) * newP

/-- The step index visited at tick `k` of a run: `setCurrentStep(0)` at
play, then each interval callback runs `advanceStep()` once before
`playStep()`. -/
def stepAfterTicks (stepCount : ℕ) : ℕ → ℕ
  | 0 => 0
  | k + 1 => advanceStep (stepAfterTicks stepCount k) stepCount

/-- Oscillator shapes (`OscillatorType` in `sequencerStore.ts`).  The type
is closed, so the `default` branch of the source's `switch` (which
duplicates the sine case) is unreachable. -/
inductive OscillatorType where
  | sine | saw | square | triangle
deriving DecidableEq, Repr

/-- JS truncation toward zero, the integer part discarded by `%`. -/
noncomputable def jsTrunc (x : ℝ) : ℤ := if 0 ≤ x then ⌊x⌋ else ⌈x⌉

/-- JS `x % 1` (remainder with the dividend's sign). -/
noncomputable def jsMod1 (x : ℝ) : ℝ := x - jsTrunc x

/-- The raw waveform value of the `switch` in `getOscillatorValue`:
sine `Math.sin(phase * Math.PI * 2)`, saw `((phase % 1) * 2) - 1`,
square `phase % 1 < 0.5 ? 1 : -1`, triangle
`Math.abs((phase % 1) * 4 - 2) - 1`. -/
noncomputable def waveValue (oscillator : OscillatorType) (phase : ℝ) : ℝ :=
  match oscillator with
  | .sine => Real.sin (phase * Real.pi * 2)
  | .saw => jsMod1 phase * 2 - 1
  | .square => if jsMod1 phase < 0.5 then 1 else -1
  | .triangle => |jsMod1 phase * 4 - 2| - 1

/-- `getOscillatorValue(phase, low, high, oscillator)` from
`useSequencerEngine.ts`: normalize the wave value to `[0,1]` via
`(v + 1) / 2`, scale to `[low, high]`, `Math.round`. -/
noncomputable def getOscillatorValue (phase low high : ℝ)
    (oscillator : OscillatorType) : ℤ :=
  round (low + (waveValue oscillator phase + 1) / 2 * (high - low))

/-- One modulation channel of the store (`ModulationState` in
`sequencerStore.ts`): parameters plus the observable `currentValue`. -/
structure ModulationState where
  enabled : Bool
  low : ℤ
  high : ℤ
  speed : ℝ          -- period in seconds
  oscillator : OscillatorType
  currentValue : ℤ   -- current modulated value (read by the Sparkline UI)

/-- The store's `updateModulationValue(target, value)` action applied to
one channel: writes `currentValue`. -/
def updateModulationValue (m : ModulationState) (value : ℤ) : ModulationState :=
  { m with currentValue := value }

/-- The per-channel body of the `sendModulations` loop in
`useSequencerEngine.ts`, for a channel bound to controller `cc`, given the
elapsed wall-clock seconds `deltaSeconds` and the channel's phase
accumulator (`modulationPhaseRef`).  A disabled channel is skipped.  An
enabled channel advances its phase by `deltaSeconds / speed`, computes
`getOscillatorValue`, and sends `controlChange(cc, value)`.  The store's
channel record is returned unchanged: the engine never dispatches
`updateModulationValue`, so `currentValue` keeps its previous value. -/
noncomputable def sendModulationChannel (cc : ℤ) (deltaSeconds phase : ℝ)
    (m : ModulationState) : ℝ × ModulationState × List MidiEvent :=
  if m.enabled = false then (phase, m, [])
  else
    let phase2 := phase + deltaSeconds / m.speed
    let value := getOscillatorValue phase2 (m.low : ℝ) (m.high : ℝ) m.oscillator
    (phase2, m, [.controlChange cc value])

/-- The `cutoff` channel's fixed controller number (`TB03_CCS.cutoff = 74`). -/
def cutoffCC : ℤ := 74

/-- The store's initial `cutoff` channel with `enabled` toggled on:
`{...createDefaultModulation(), low: 40, high: 120}` with
`currentValue: 60`, oscillator `sine`, and period 2 seconds. -/
def cutoffEnabled : ModulationState :=
  ⟨true, 40, 120, 2, .sine, 60⟩

/-- The initial store pattern: 16 copies of the default step. -/
def defaultSteps : List Step := List.replicate 16 defaultStep

/-- A pattern whose step 0 is a non-tied rest (`active=false, tie=false`),
the remaining 15 steps default. -/
def restSteps : List Step :=
  ⟨NoteName.C, 0, false, false, false, false⟩ :: List.replicate 15 defaultStep

/-- A pattern whose step 0 triggers and step 1 is a non-tied rest. -/
def witSteps : List Step :=
  defaultStep :: ⟨NoteName.C, 0, false, false, false, false⟩ ::
    List.replicate 14 defaultStep

/-- A pattern whose step 4 is active and not tied and step 5 has
`tie=true`. -/
def tieSteps : List Step :=
  List.replicate 5 defaultStep ++
    ⟨NoteName.C, 0, false, false, true, true⟩ :: List.replicate 10 defaultStep

end Gen303

namespace Gen303

/-! ## Helper lemmas -/

theorem noteIndex_nonneg (nn : NoteName) : 0 ≤ noteIndex nn := by
  cases nn <;> decide

theorem noteIndex_le_eleven (nn : NoteName) : noteIndex nn ≤ 11 := by
  cases nn <;> decide

/-- `playStep` on a rest (`active=false`): the pending note-off handle is
cleared, nothing is emitted, and `lastNoteRef` is left untouched. -/
theorem playStep_rest (steps : List Step) (i : ℕ) (tempo : ℚ) (b : ℤ) (r : ℚ)
    (g : GateState) (h : (getStep steps i).active = false) :
    playStep steps i tempo b r g = (⟨g.lastNote, none⟩, []) := by
  simp [playStep, h]

/-- `playStep` on a triggering step (`active=true` and not a tied hold):
slide CC, note-on, `lastNoteRef` set, and the deferred note-off scheduled
exactly when the next step is not tied. -/
theorem playStep_trigger (steps : List Step) (i : ℕ) (tempo : ℚ) (b : ℤ) (r : ℚ)
    (g : GateState) (hact : (getStep steps i).active = true)
    (htie : (getStep steps i).tie = false ∨ g.lastNote = none) :
    playStep steps i tempo b r g =
      (⟨some (stepToMidiNote (getStep steps i) b),
        if (getStep steps ((i + 1) % steps.length)).tie = false then
          some ⟨stepToMidiNote (getStep steps i) b, getStepDuration tempo * 0.85⟩
        else none⟩,
       [if (getStep steps i).slide then MidiEvent.controlChange 102 127
        else MidiEvent.controlChange 102 0,
        MidiEvent.noteOn (stepToMidiNote (getStep steps i) b)
          (getVelocity (getStep steps i).accent r)]) := by
  rcases htie with htie | hnone
  · by_cases hnext : (getStep steps ((i + 1) % steps.length)).tie = false <;>
      simp [playStep, hact, htie, hnext]
  · by_cases htie' : (getStep steps i).tie = true <;>
      by_cases hnext : (getStep steps ((i + 1) % steps.length)).tie = false <;>
      simp [playStep, hact, htie', hnone, hnext]

/-- `playStep` on a tied hold (`tie=true` with a held note): pending
cleared, nothing emitted, `lastNoteRef` untouched. -/
theorem playStep_tiedHold (steps : List Step) (i : ℕ) (tempo : ℚ) (b : ℤ) (r : ℚ)
    (g : GateState) (htie : (getStep steps i).tie = true)
    (hheld : g.lastNote.isSome = true) :
    (playStep steps i tempo b r g).2 = [] ∧
    (playStep steps i tempo b r g).1 = ⟨g.lastNote, none⟩ := by
  by_cases hact : (getStep steps i).active = false
  · simp [playStep, hact]
  · simp only [Bool.not_eq_false] at hact
    simp [playStep, hact, htie, hheld]

/-- The sine scenario value: quarter cycle, range `[40,120]` gives 120. -/
theorem osc_sine_quarter : getOscillatorValue 0.25 40 120 .sine = 120 := by
  have harg : (0.25 : ℝ) * Real.pi * 2 = Real.pi / 2 := by ring
  have hsin : waveValue .sine (0.25 : ℝ) = 1 := by
    simp [waveValue, harg, Real.sin_pi_div_two]
  have : (40 : ℝ) + (waveValue .sine (0.25 : ℝ) + 1) / 2 * (120 - 40) = ((120 : ℤ) : ℝ) := by
    rw [hsin]; norm_num
  rw [getOscillatorValue, this, round_intCast]

/-- Each interval tick advances the visited step index by one modulo the
step count: the index at tick `k` is `k % n`. -/
theorem stepAfterTicks_eq (n k : ℕ) : stepAfterTicks n k = k % n := by
  induction k with
  | zero => simp [stepAfterTicks]
  | succ k ih =>
    simp only [stepAfterTicks, advanceStep, ih, Nat.mod_add_mod]

/-- For a nonnegative argument, JS `x % 1` is the fractional part. -/
theorem jsMod1_fract (x : ℝ) (hx : 0 ≤ x) : jsMod1 x = Int.fract x := by
  rw [jsMod1, jsTrunc, if_pos hx, Int.fract]

/-! ## Claims -/

/-- C7: for every active non-tied step, the emitted MIDI note number equals
`(baseOctave + octaveOffset + 1) * 12 + pitchClassIndex`; in particular a
step with pitch class C, octave offset 0, at base octave 3 yields note 48
in the note-on that `playStep` emits. -/
theorem trigger_note_number (steps : List Step) (i : ℕ) (tempo : ℚ)
    (baseOctave : ℤ) (r r0 : ℚ) (g : GateState)
    (hact : (getStep steps i).active = true)
    (htie : (getStep steps i).tie = false) :
    (playStep steps i tempo baseOctave r g).2 =
      [if (getStep steps i).slide then MidiEvent.controlChange 102 127
       else MidiEvent.controlChange 102 0,
       MidiEvent.noteOn
         ((baseOctave + (getStep steps i).octave + 1) * 12 + noteIndex (getStep steps i).note)
         (getVelocity (getStep steps i).accent r)] ∧
    stepToMidiNote defaultStep 3 = 48 ∧
    (playStep defaultSteps 0 120 3 r0 ⟨none, none⟩).2 =
      [MidiEvent.controlChange 102 0, MidiEvent.noteOn 48 (getVelocity false r0)] := by
  refine ⟨?_, by decide, ?_⟩
  · rw [playStep_trigger steps i tempo baseOctave r g hact (Or.inl htie)]
    rfl
  · rw [playStep_trigger defaultSteps 0 120 3 r0 ⟨none, none⟩ (by decide) (Or.inr rfl)]
    norm_num [getStep, defaultSteps, defaultStep, stepToMidiNote, noteIndex]

/-- Witness for C7 at the default pattern, `r = 1/2`. -/
theorem trigger_note_number_witness :
    (playStep defaultSteps 0 120 3 (1/2) ⟨none, none⟩).2 =
      [if (getStep defaultSteps 0).slide then MidiEvent.controlChange 102 127
       else MidiEvent.controlChange 102 0,
       MidiEvent.noteOn
         ((3 + (getStep defaultSteps 0).octave + 1) * 12 + noteIndex (getStep defaultSteps 0).note)
         (getVelocity (getStep defaultSteps 0).accent (1/2))] :=
  (trigger_note_number defaultSteps 0 120 3 (1/2) (1/2) ⟨none, none⟩
    (by decide) (by decide)).1

/-- C8: with the `Math.random()` draw `r ∈ [0,1)` explicit, an accented
note's velocity lies in `[100,127]` and a non-accented note's velocity in
`[1,98]`. -/
theorem velocity_ranges (r : ℚ) (h0 : 0 ≤ r) (h1 : r < 1) :
    (100 ≤ getVelocity true r ∧ getVelocity true r ≤ 127) ∧
    (1 ≤ getVelocity false r ∧ getVelocity false r ≤ 98) := by
  have ha0 : (0 : ℤ) ≤ ⌊r * 28⌋ := Int.floor_nonneg.mpr (by positivity)
  have ha1 : ⌊r * 28⌋ < 28 := by
    rw [Int.floor_lt]; push_cast; nlinarith
  have hb0 : (0 : ℤ) ≤ ⌊r * 98⌋ := Int.floor_nonneg.mpr (by positivity)
  have hb1 : ⌊r * 98⌋ < 98 := by
    rw [Int.floor_lt]; push_cast; nlinarith
  simp only [getVelocity, Bool.false_eq_true, if_false, if_true]
  omega

/-- Witness for C8 at `r = 1/2`. -/
theorem velocity_ranges_witness :
    (100 ≤ getVelocity true (1/2) ∧ getVelocity true (1/2) ≤ 127) ∧
    (1 ≤ getVelocity false (1/2) ∧ getVelocity false (1/2) ≤ 98) :=
  velocity_ranges (1/2) (by norm_num) (by norm_num)

/-- C10: under the store clamps (`setBaseOctave` into `[1,6]`, per-step
octave into `[-1,1]`), every computed MIDI note lies in `[12,107]`, inside
the sink's 0–127 range, and the `noteOn` path sends the note byte
unaltered (its clamp applies to the velocity only). -/
theorem midi_note_in_range (x y : ℤ) (step : Step) (baseOctave velocity : ℤ)
    (hb1 : 1 ≤ baseOctave) (hb2 : baseOctave ≤ 6)
    (ho1 : -1 ≤ step.octave) (ho2 : step.octave ≤ 1) :
    (1 ≤ setBaseOctaveClamp x ∧ setBaseOctaveClamp x ≤ 6) ∧
    (-1 ≤ setOctaveClamp y ∧ setOctaveClamp y ≤ 1) ∧
    (12 ≤ stepToMidiNote step baseOctave ∧ stepToMidiNote step baseOctave ≤ 107) ∧
    midiClamp (stepToMidiNote step baseOctave) = stepToMidiNote step baseOctave ∧
    noteOnMessage (stepToMidiNote step baseOctave) velocity =
      [144, stepToMidiNote step baseOctave, midiClamp velocity] := by
  have hn0 := noteIndex_nonneg step.note
  have hn1 := noteIndex_le_eleven step.note
  refine ⟨⟨?_, ?_⟩, ⟨?_, ?_⟩, ⟨?_, ?_⟩, ?_, rfl⟩ <;>
    simp only [setBaseOctaveClamp, setOctaveClamp, stepToMidiNote, midiClamp] <;>
    omega

/-- Witness for C10: base octave 3, octave offset 0, pitch class C. -/
theorem midi_note_in_range_witness :
    (1 ≤ setBaseOctaveClamp 9 ∧ setBaseOctaveClamp 9 ≤ 6) ∧
    (-1 ≤ setOctaveClamp 5 ∧ setOctaveClamp 5 ≤ 1) ∧
    (12 ≤ stepToMidiNote defaultStep 3 ∧ stepToMidiNote defaultStep 3 ≤ 107) ∧
    midiClamp (stepToMidiNote defaultStep 3) = stepToMidiNote defaultStep 3 ∧
    noteOnMessage (stepToMidiNote defaultStep 3) 114 =
      [144, stepToMidiNote defaultStep 3, midiClamp 114] :=
  midi_note_in_range 9 5 defaultStep 3 114 (by decide) (by decide) (by decide) (by decide)

/-- C4: `handleStop` from any engine state emits exactly one all-notes-off,
a note-off for the held note iff one was held, resets the pitch-bend to
neutral, and leaves no pending deferred note-off, `isPlaying=false`,
`currentStepIndex=0`. -/
theorem handleStop_spec (e : EngineState) :
    ((handleStop e).2.count MidiEvent.allNotesOff = 1) ∧
    (∀ n, e.gate.lastNote = some n → MidiEvent.noteOff n ∈ (handleStop e).2) ∧
    (e.gate.lastNote = none → ∀ n, MidiEvent.noteOff n ∉ (handleStop e).2) ∧
    (MidiEvent.pitchBendMsg 0 ∈ (handleStop e).2) ∧
    ((handleStop e).1.gate.pending = none) ∧
    ((handleStop e).1.gate.lastNote = none) ∧
    ((handleStop e).1.isPlaying = false) ∧
    ((handleStop e).1.currentStep = 0) := by
  rcases e with ⟨⟨ln, p⟩, ip, cs⟩
  cases ln <;>
    simp [handleStop, List.count_cons, List.count_nil]

/-- C1 counterexample: on a tick whose step is a non-tied rest
(`restSteps` step 0) while note 48 is held, the engine does **not** emit a
note-off for the held note and does **not** clear the held-note state —
`playStep` returns from the rest branch having emitted nothing, with
`lastNoteRef` still 48. -/
theorem rest_tick_cex :
    ¬ (MidiEvent.noteOff 48 ∈ (playStep restSteps 0 120 3 0 ⟨some 48, none⟩).2 ∧
       (playStep restSteps 0 120 3 0 ⟨some 48, none⟩).1.lastNote = none) ∧
    (playStep restSteps 0 120 3 0 ⟨some 48, none⟩).2 = [] ∧
    (playStep restSteps 0 120 3 0 ⟨some 48, none⟩).1.lastNote = some 48 := by
  refine ⟨?_, ?_, ?_⟩ <;> decide

/-- C1 amended: a rest tick cancels any pending deferred note-off, emits
nothing, and leaves the held-note state untouched; a non-tied rest still
cuts the sounding note because the deferred note-off scheduled by the
triggering tick (at 0.85 of a step, hence before the rest tick) fires in
between: over the trigger tick, the settle window, and the rest tick, the
messages are exactly slide CC, note-on, then note-off of the same note,
while `lastNoteRef` stays set. -/
theorem rest_tick_behavior (steps : List Step) (i : ℕ) (tempo : ℚ)
    (baseOctave : ℤ) (r r2 : ℚ) (g : GateState)
    (hact : (getStep steps i).active = true)
    (htie : (getStep steps i).tie = false)
    (hrest : (getStep steps ((i + 1) % steps.length)).active = false)
    (hrtie : (getStep steps ((i + 1) % steps.length)).tie = false) :
    (∀ (steps' : List Step) (i' : ℕ) (tempo' : ℚ) (b' : ℤ) (r' : ℚ) (g' : GateState),
        (getStep steps' i').active = false →
        playStep steps' i' tempo' b' r' g' = (⟨g'.lastNote, none⟩, [])) ∧
    ((tickAndSettle steps i tempo baseOctave r g).2 =
      [if (getStep steps i).slide then MidiEvent.controlChange 102 127
       else MidiEvent.controlChange 102 0,
       MidiEvent.noteOn (stepToMidiNote (getStep steps i) baseOctave)
         (getVelocity (getStep steps i).accent r),
       MidiEvent.noteOff (stepToMidiNote (getStep steps i) baseOctave)]) ∧
    ((playStep steps ((i + 1) % steps.length) tempo baseOctave r2
        (tickAndSettle steps i tempo baseOctave r g).1).2 = []) ∧
    ((playStep steps ((i + 1) % steps.length) tempo baseOctave r2
        (tickAndSettle steps i tempo baseOctave r g).1).1.lastNote =
      some (stepToMidiNote (getStep steps i) baseOctave)) := by
  have htick :
      tickAndSettle steps i tempo baseOctave r g =
        (⟨some (stepToMidiNote (getStep steps i) baseOctave), none⟩,
         [if (getStep steps i).slide then MidiEvent.controlChange 102 127
          else MidiEvent.controlChange 102 0,
          MidiEvent.noteOn (stepToMidiNote (getStep steps i) baseOctave)
            (getVelocity (getStep steps i).accent r),
          MidiEvent.noteOff (stepToMidiNote (getStep steps i) baseOctave)]) := by
    rw [tickAndSettle, playStep_trigger steps i tempo baseOctave r g hact (Or.inl htie)]
    simp [hrtie, firePending]
  refine ⟨fun steps' i' tempo' b' r' g' h => playStep_rest steps' i' tempo' b' r' g' h,
    ?_, ?_, ?_⟩
  · rw [htick]
  · rw [htick, playStep_rest _ _ _ _ _ _ hrest]
  · rw [htick, playStep_rest _ _ _ _ _ _ hrest]

/-- Witness for C1 amended: step 0 triggers C3 (note 48), step 1 is a
non-tied rest. -/
theorem rest_tick_behavior_witness :
    (∀ (steps' : List Step) (i' : ℕ) (tempo' : ℚ) (b' : ℤ) (r' : ℚ) (g' : GateState),
        (getStep steps' i').active = false →
        playStep steps' i' tempo' b' r' g' = (⟨g'.lastNote, none⟩, [])) ∧
    ((tickAndSettle witSteps 0 120 3 0 ⟨none, none⟩).2 =
      [if (getStep witSteps 0).slide then MidiEvent.controlChange 102 127
       else MidiEvent.controlChange 102 0,
       MidiEvent.noteOn (stepToMidiNote (getStep witSteps 0) 3)
         (getVelocity (getStep witSteps 0).accent 0),
       MidiEvent.noteOff (stepToMidiNote (getStep witSteps 0) 3)]) ∧
    ((playStep witSteps ((0 + 1) % witSteps.length) 120 3 0
        (tickAndSettle witSteps 0 120 3 0 ⟨none, none⟩).1).2 = []) ∧
    ((playStep witSteps ((0 + 1) % witSteps.length) 120 3 0
        (tickAndSettle witSteps 0 120 3 0 ⟨none, none⟩).1).1.lastNote =
      some (stepToMidiNote (getStep witSteps 0) 3)) :=
  rest_tick_behavior witSteps 0 120 3 0 0 ⟨none, none⟩
    (by decide) (by decide) (by decide) (by decide)

/-- C2: a tick whose step has `tie=true` while a note is held emits
nothing; and in the scenario where step `i` triggers a note and step `i+1`
is tied, advancing from `i` to `i+1` produces no note-off and no note-on:
the triggering tick schedules no deferred note-off, nothing fires between
the ticks, and the tied tick emits nothing. -/
theorem tie_step_no_events (steps : List Step) (i : ℕ) (tempo : ℚ)
    (baseOctave : ℤ) (r r2 : ℚ) (g : GateState)
    (hact : (getStep steps i).active = true)
    (htie : (getStep steps i).tie = false)
    (hnext : (getStep steps ((i + 1) % steps.length)).tie = true) :
    (∀ (steps' : List Step) (i' : ℕ) (tempo' : ℚ) (b' : ℤ) (r' : ℚ) (g' : GateState),
        (getStep steps' i').tie = true → (g'.lastNote).isSome = true →
        (playStep steps' i' tempo' b' r' g').2 = []) ∧
    ((playStep steps i tempo baseOctave r g).1.pending = none) ∧
    (firePending (playStep steps i tempo baseOctave r g).1 =
      ((playStep steps i tempo baseOctave r g).1, [])) ∧
    ((playStep steps ((i + 1) % steps.length) tempo baseOctave r2
        (playStep steps i tempo baseOctave r g).1).2 = []) := by
  have hgen : ∀ (steps' : List Step) (i' : ℕ) (tempo' : ℚ) (b' : ℤ) (r' : ℚ)
      (g' : GateState), (getStep steps' i').tie = true → (g'.lastNote).isSome = true →
      (playStep steps' i' tempo' b' r' g').2 = [] := by
    intro steps' i' tempo' b' r' g' ht hh
    by_cases ha : (getStep steps' i').active = false
    · rw [playStep_rest steps' i' tempo' b' r' g' ha]
    · exact (playStep_tiedHold steps' i' tempo' b' r' g' ht hh).1
  have hstep : (playStep steps i tempo baseOctave r g).1 =
      ⟨some (stepToMidiNote (getStep steps i) baseOctave), none⟩ := by
    rw [playStep_trigger steps i tempo baseOctave r g hact (Or.inl htie)]
    simp [hnext]
  refine ⟨hgen, ?_, ?_, ?_⟩
  · rw [hstep]
  · rw [hstep]; rfl
  · exact hgen steps ((i + 1) % steps.length) tempo baseOctave r2 _ hnext (by rw [hstep]; rfl)

/-- Witness for C2: step 4 of `tieSteps` is active and not tied, step 5 is
tied. -/
theorem tie_step_no_events_witness :
    (∀ (steps' : List Step) (i' : ℕ) (tempo' : ℚ) (b' : ℤ) (r' : ℚ) (g' : GateState),
        (getStep steps' i').tie = true → (g'.lastNote).isSome = true →
        (playStep steps' i' tempo' b' r' g').2 = []) ∧
    ((playStep tieSteps 4 120 3 0 ⟨none, none⟩).1.pending = none) ∧
    (firePending (playStep tieSteps 4 120 3 0 ⟨none, none⟩).1 =
      ((playStep tieSteps 4 120 3 0 ⟨none, none⟩).1, [])) ∧
    ((playStep tieSteps ((4 + 1) % tieSteps.length) 120 3 0
        (playStep tieSteps 4 120 3 0 ⟨none, none⟩).1).2 = []) :=
  tie_step_no_events tieSteps 4 120 3 0 0 ⟨none, none⟩ (by decide) (by decide) (by decide)

/-- C6: the step period is `15000/tempo` ms; `playStep` discards any
still-pending deferred note-off before evaluating (so, the pending slot
holding at most one handle, at most one deferred note-off is ever
pending); and a new-note trigger schedules a deferred note-off with delay
`0.85 × 15000/tempo` exactly when the next step in cyclic order is not
tied. -/
theorem deferred_noteoff_schedule (steps : List Step) (i : ℕ) (tempo : ℚ)
    (baseOctave : ℤ) (r : ℚ) (g : GateState)
    (ht1 : 30 ≤ tempo) (ht2 : tempo ≤ 300)
    (hact : (getStep steps i).active = true)
    (htie : (getStep steps i).tie = false ∨ g.lastNote = none) :
    (getStepDuration tempo = 15000 / tempo) ∧
    (∀ (ln : Option ℤ) (q : Pending),
        playStep steps i tempo baseOctave r ⟨ln, some q⟩ =
        playStep steps i tempo baseOctave r ⟨ln, none⟩) ∧
    ((playStep steps i tempo baseOctave r g).1.pending =
      if (getStep steps ((i + 1) % steps.length)).tie = true then none
      else some ⟨stepToMidiNote (getStep steps i) baseOctave, 0.85 * (15000 / tempo)⟩) := by
  have htz : tempo ≠ 0 := by positivity
  have hdur : getStepDuration tempo = 15000 / tempo := by
    rw [getStepDuration]; field_simp; ring
  refine ⟨hdur, ?_, ?_⟩
  · intro ln q
    simp [playStep]
  · rw [playStep_trigger steps i tempo baseOctave r g hact htie]
    by_cases hnext : (getStep steps ((i + 1) % steps.length)).tie = true
    · simp [hnext]
    · simp only [Bool.not_eq_true] at hnext
      simp only [hnext, Bool.false_eq_true, if_false, if_pos, hdur,
        Option.some.injEq, Pending.mk.injEq, true_and]
      ring

/-- Witness for C6 at the default pattern, tempo 120. -/
theorem deferred_noteoff_schedule_witness :
    (getStepDuration 120 = 15000 / 120) ∧
    (∀ (ln : Option ℤ) (q : Pending),
        playStep defaultSteps 0 120 3 0 ⟨ln, some q⟩ =
        playStep defaultSteps 0 120 3 0 ⟨ln, none⟩) ∧
    ((playStep defaultSteps 0 120 3 0 ⟨none, none⟩).1.pending =
      if (getStep defaultSteps ((0 + 1) % defaultSteps.length)).tie = true then none
      else some ⟨stepToMidiNote (getStep defaultSteps 0) 3, 0.85 * (15000 / 120)⟩) :=
  deferred_noteoff_schedule defaultSteps 0 120 3 0 ⟨none, none⟩
    (by norm_num) (by norm_num) (by decide) (Or.inr rfl)

/-- C5 counterexample: with the old period 500 ms (tempo 30) and a tempo
change to period 50 ms (tempo 300) arriving 10 ms after a tick, the next
tick fires 60 ms later — two ticks land within one old-period window, so
the claim's "no two ticks fire within one old-period window of each other"
fails on the rescheduling the code performs. -/
theorem retempo_cex :
    ((0 : ℚ) + (0 : ℕ) * 500 ≤ 10) ∧
    ¬ (500 ≤ tickTimeline 0 500 10 50 0 1 - tickTimeline 0 500 10 50 0 0) ∧
    tickTimeline 0 500 10 50 0 1 - tickTimeline 0 500 10 50 0 0 = 60 := by
  norm_num [tickTimeline]

/-- C5 amended: a mid-playback tempo change cancels the old interval and
schedules the next tick one **new** period after the change, so consecutive
ticks are never closer than `min oldPeriod newPeriod`, the pair straddling
the change is at least one new period apart, and no step of the cyclic
sequence is skipped (the index visited at tick `k` is `k % n`); two ticks
may however land within one old-period window when the new period is
shorter. -/
theorem retempo_schedule (start oldP changeTime newP : ℚ) (m k n : ℕ)
    (hold : 0 < oldP) (hnew : 0 < newP)
    (hchange : start + (m : ℚ) * oldP ≤ changeTime) :
    min oldP newP ≤
      tickTimeline start oldP changeTime newP m (k + 1) -
        tickTimeline start oldP changeTime newP m k ∧
    newP ≤ tickTimeline start oldP changeTime newP m (m + 1) -
        tickTimeline start oldP changeTime newP m m ∧
    stepAfterTicks n k = k % n := by
  have hstraddle : newP ≤ tickTimeline start oldP changeTime newP m (m + 1) -
      tickTimeline start oldP changeTime newP m m := by
    rw [tickTimeline, tickTimeline, if_pos (le_refl m), if_neg (by omega)]
    have h1 : m + 1 - m = 1 := by omega
    rw [h1]
    push_cast
    linarith
  refine ⟨?_, hstraddle, stepAfterTicks_eq n k⟩
  rcases lt_trichotomy k m with hk | hk | hk
  · rw [tickTimeline, tickTimeline, if_pos (by omega), if_pos (by omega)]
    push_cast
    have h2 : start + ((k : ℚ) + 1) * oldP - (start + (k : ℚ) * oldP) = oldP := by ring
    rw [h2]
    exact min_le_left _ _
  · subst hk
    exact le_trans (min_le_right _ _) hstraddle
  · rw [tickTimeline, tickTimeline, if_neg (by omega), if_neg (by omega)]
    have h1 : k + 1 - m = (k - m) + 1 := by omega
    rw [h1]
    push_cast
    have h2 : changeTime + (((k - m : ℕ) : ℚ) + 1) * newP -
        (changeTime + ((k - m : ℕ) : ℚ) * newP) = newP := by ring
    rw [h2]
    exact min_le_right _ _

/-- Witness for C5 amended: old period 500, change at 10 ms, new period 50,
around the change (`m = 0`), tick pair `k = 0`, 16 steps. -/
theorem retempo_schedule_witness :
    min (500 : ℚ) 50 ≤
      tickTimeline 0 500 10 50 0 (0 + 1) - tickTimeline 0 500 10 50 0 0 ∧
    (50 : ℚ) ≤ tickTimeline 0 500 10 50 0 (0 + 1) - tickTimeline 0 500 10 50 0 0 ∧
    stepAfterTicks 16 0 = 0 % 16 :=
  retempo_schedule 0 500 10 50 0 0 16 (by norm_num) (by norm_num) (by norm_num)

/-- C9: `getOscillatorValue` maps the raw waveform value — which lies in
`[-1,1]` for the nonnegative phases the engine produces — through
`(v+1)/2`, scales to `[low, high]`, and rounds to the nearest integer; in
particular a sine channel with `low=40, high=120` at quarter cycle
(phase 0.25, i.e. 0.5 s elapsed at a 2 s period) yields 120. -/
theorem oscillator_value_spec (phase low high : ℝ) (osc : OscillatorType)
    (hp : 0 ≤ phase) :
    getOscillatorValue phase low high osc =
      round (low + (waveValue osc phase + 1) / 2 * (high - low)) ∧
    (-1 ≤ waveValue osc phase ∧ waveValue osc phase ≤ 1) ∧
    getOscillatorValue 0.25 40 120 .sine = 120 := by
  refine ⟨rfl, ?_, osc_sine_quarter⟩
  have hf0 : 0 ≤ Int.fract phase := Int.fract_nonneg phase
  have hf1 : Int.fract phase < 1 := Int.fract_lt_one phase
  have hm : jsMod1 phase = Int.fract phase := jsMod1_fract phase hp
  cases osc with
  | sine => exact ⟨Real.neg_one_le_sin _, Real.sin_le_one _⟩
  | saw =>
    rw [waveValue, hm]
    constructor <;> linarith
  | square =>
    simp only [waveValue]
    split_ifs <;> norm_num
  | triangle =>
    rw [waveValue, hm]
    have habs : |Int.fract phase * 4 - 2| ≤ 2 :=
      abs_le.mpr ⟨by linarith, by linarith⟩
    have hnn : 0 ≤ |Int.fract phase * 4 - 2| := abs_nonneg _
    constructor <;> linarith

/-- Witness for C9 at phase 0.25. -/
theorem oscillator_value_spec_witness :
    getOscillatorValue 0.25 40 120 .sine =
      round ((40 : ℝ) + (waveValue .sine 0.25 + 1) / 2 * (120 - 40)) ∧
    (-1 ≤ waveValue .sine (0.25 : ℝ) ∧ waveValue .sine (0.25 : ℝ) ≤ 1) ∧
    getOscillatorValue 0.25 40 120 .sine = 120 :=
  oscillator_value_spec 0.25 40 120 .sine (by norm_num)

/-- C3 divergence witness: `sendModulations` never writes the store's
`currentValue` — the general conjunct shows the channel record returned is
always the input record — so on the concrete failing input (the enabled
`cutoff` channel, 0.5 s elapsed from phase 0) the engine emits
`controlChange(74, 120)` while `currentValue` stays at its initial 60; the
store's `updateModulationValue` action, which would record 120, exists but
is never called by the engine. -/
theorem modulation_not_recorded :
    (∀ (cc : ℤ) (d p : ℝ) (m : ModulationState),
        (sendModulationChannel cc d p m).2.1.currentValue = m.currentValue) ∧
    sendModulationChannel cutoffCC 0.5 0 cutoffEnabled =
      (0.25, cutoffEnabled, [MidiEvent.controlChange 74 120]) ∧
    cutoffEnabled.currentValue = 60 ∧
    (updateModulationValue cutoffEnabled 120).currentValue = 120 ∧
    (60 : ℤ) ≠ 120 := by
  refine ⟨?_, ?_, rfl, rfl, by norm_num⟩
  · intro cc d p m
    by_cases h : m.enabled = false <;> simp [sendModulationChannel, h]
  · have hphase : (0 : ℝ) + 0.5 / (2 : ℝ) = 0.25 := by norm_num
    have h40 : ((40 : ℤ) : ℝ) = (40 : ℝ) := by norm_num
    have h120 : ((120 : ℤ) : ℝ) = (120 : ℝ) := by norm_num
    simp only [sendModulationChannel, cutoffEnabled, cutoffCC, Bool.true_eq_false,
      if_false, hphase, h40, h120, osc_sine_quarter]

/-- Witness for C4: stopping with note 48 held and a pending note-off. -/
theorem handleStop_spec_witness :
    ((handleStop ⟨⟨some 48, some ⟨48, 125⟩⟩, true, 5⟩).2.count MidiEvent.allNotesOff = 1) ∧
    (∀ n, (⟨⟨some 48, some ⟨48, 125⟩⟩, true, 5⟩ : EngineState).gate.lastNote = some n →
      MidiEvent.noteOff n ∈ (handleStop ⟨⟨some 48, some ⟨48, 125⟩⟩, true, 5⟩).2) ∧
    ((⟨⟨some 48, some ⟨48, 125⟩⟩, true, 5⟩ : EngineState).gate.lastNote = none →
      ∀ n, MidiEvent.noteOff n ∉ (handleStop ⟨⟨some 48, some ⟨48, 125⟩⟩, true, 5⟩).2) ∧
    (MidiEvent.pitchBendMsg 0 ∈ (handleStop ⟨⟨some 48, some ⟨48, 125⟩⟩, true, 5⟩).2) ∧
    ((handleStop ⟨⟨some 48, some ⟨48, 125⟩⟩, true, 5⟩).1.gate.pending = none) ∧
    ((handleStop ⟨⟨some 48, some ⟨48, 125⟩⟩, true, 5⟩).1.gate.lastNote = none) ∧
    ((handleStop ⟨⟨some 48, some ⟨48, 125⟩⟩, true, 5⟩).1.isPlaying = false) ∧
    ((handleStop ⟨⟨some 48, some ⟨48, 125⟩⟩, true, 5⟩).1.currentStep = 0) :=
  handleStop_spec ⟨⟨some 48, some ⟨48, 125⟩⟩, true, 5⟩

end Gen303
